import Mathlib

set_option maxRecDepth 8000
set_option maxHeartbeats 2000000

/-!
Verification of the safe arithmetic-expression evaluator of
`src/simple_agent/tools.py` (`CalculatorTool._run` together with its inner
`eval_expr` visitor and `operators` table).

The Python code is shallowly embedded as executable Lean definitions:

* strings are `List Char` / `String`;
* Python's arbitrary-precision `int` is `Int`;
* Python's `float` is an IEEE-754 binary64 value (`Dbl`): a sign and a
  magnitude counted in units of `2^-1074` (so signed zeros and subnormals are
  represented exactly), plus infinities and nan.  Literal conversion,
  `+`, `-`, `*`, `/`, int-to-float conversion and integral-exponent powers are
  computed as the exact rational result rounded to nearest, ties to even —
  which is exactly what CPython's hardware arithmetic and `strtod` do — with
  the `OverflowError` paths of int-to-float conversion, int/int true division
  and float power reproduced.  A power with exponent `±0.5` is the correctly
  rounded square root (what `libm pow` returns for that exponent).  The only
  operations outside the model, reported as a `modelGap` error instead of a
  guessed value, are: a fractional exponent other than `±0.5` (the result is
  whatever the platform `libm pow` returns, which the source does not
  determine), a negative base with a non-integral exponent (CPython promotes
  to a complex result), a power with an infinite or nan operand on the libm
  path, and an integral exponent so large that the exact value is intractable
  and not decidably over/underflowing from magnitude bounds alone;
* `str(float)` is the shortest decimal string that rounds back to the same
  double (CPython's `repr` algorithm), with fixed-point notation for decimal
  exponents in `[-3, 16]` and scientific notation otherwise;
* `ast.parse(expression, mode='eval')` is embedded as a tokenizer plus a
  recursive-descent parser implementing the Python expression grammar
  restricted to the tokens that can appear after the character whitelist:
  numbers, `+`, `-`, `*`, `/`, `**`, `//`, parentheses, `...` and the empty
  tuple `()`.  Newlines inside parentheses are implicitly joined; a top-level
  newline ends the expression, as in eval mode.  Call syntax such as `1(2)`
  (which CPython parses and then rejects as an unsupported `Call` node) is
  reported as a syntax error here; both behaviours produce a wrapped error
  string.  Exception message texts for syntax errors are abbreviated (CPython
  appends location information);
* exceptions are `Except PyExc`; the `try/except` catch-all of `_run` is the
  final `match` that converts an `Except.error` into the
  `"❗ Error evaluating expression: …"` string.
-/

/-! ## Characters and string helpers -/

/-- The characters removed by `expression.strip("'\"")`: a single or a double
quote. -/
def isQuoteChar (c : Char) : Bool := c == Char.ofNat 39 || c == '"'

/-- `expression.strip("'\"")`: remove leading and trailing quote characters. -/
def stripQuotes (s : List Char) : List Char :=
  ((s.dropWhile isQuoteChar).reverse.dropWhile isQuoteChar).reverse

/-- ASCII lowering, the effect of `str.lower()` on the ASCII range. -/
def lowerChar (c : Char) : Char :=
  if 65 ≤ c.toNat ∧ c.toNat ≤ 90 then Char.ofNat (c.toNat + 32) else c

/-- Python's regex `\s` on strings: the ASCII whitespace characters together
with the Unicode whitespace code points (file/group/record/unit separators,
next line, no-break space, ogham space mark, the U+2000 range, line and
paragraph separators, narrow no-break space, medium mathematical space,
ideographic space). -/
def isPySpace (c : Char) : Bool :=
  c == ' ' || c == '\t' || c == '\n' || c == '\r' ||
  c == Char.ofNat 11 || c == Char.ofNat 12 ||
  (decide (28 ≤ c.toNat) && decide (c.toNat ≤ 31)) ||
  c.toNat == 133 || c.toNat == 160 || c.toNat == 5760 ||
  (decide (8192 ≤ c.toNat) && decide (c.toNat ≤ 8202)) ||
  c.toNat == 8232 || c.toNat == 8233 || c.toNat == 8239 ||
  c.toNat == 8287 || c.toNat == 12288

/-- The whitespace the CPython tokenizer skips inside a logical line: space,
tab and form feed.  (Other `\s` characters pass the whitelist but are
tokenization errors, and newlines are handled by the line structure.) -/
def isTokSpace (c : Char) : Bool :=
  c == ' ' || c == '\t' || c == Char.ofNat 12

/-- One character of the whitelist class `[0-9+\-*/().\s\*]` used by
`re.fullmatch` in `_run` (the doubled `\*` adds nothing to the class). -/
def allowedChar (c : Char) : Bool :=
  c.isDigit || c == '+' || c == '-' || c == '*' || c == '/' ||
  c == '(' || c == ')' || c == '.' || isPySpace c

/-- `re.fullmatch(r"[0-9+\-*/().\s\*]+", expression)` as a Boolean: the string
is nonempty and every character is in the class (`+` needs at least one
character). -/
def charsOk (e : List Char) : Bool := !e.isEmpty && e.all allowedChar

/-- Python's substring test `p in s` on character lists. -/
def containsSub (s p : List Char) : Bool :=
  if p.isPrefixOf s then true
  else
    match s with
    | [] => false
    | _ :: rest => containsSub rest p

/-- The square-root shortcut test of `_run`:
`"square root" in expression.lower() or "sqrt" in expression.lower()`. -/
def sqrtTrigger (e : List Char) : Bool :=
  let low := e.map lowerChar
  containsSub low ("square root".toList) || containsSub low ("sqrt".toList)

/-- `re.search(r'\d+', expression)`: the first (leftmost) maximal run of
decimal digits, if any. -/
def firstDigitRun : List Char → Option (List Char)
  | [] => none
  | c :: cs =>
    if c.isDigit then some (c :: cs.takeWhile Char.isDigit)
    else firstDigitRun cs

/-- `int(match.group())`: the natural number denoted by a digit run. -/
def natOfDigits (ds : List Char) : ℕ :=
  ds.foldl (fun a c => 10 * a + (c.toNat - 48)) 0

/-! ## Integer helpers

Fuel-based versions of floor log2, 2-adic valuation and integer square root,
so that everything reduces on concrete inputs. -/

/-- An exponent `e` with `n < 2^e`, found by doubling (logarithmic depth). -/
def log2UpAux : ℕ → ℕ → ℕ → ℕ
  | 0, e, _ => e
  | f + 1, e, n => if n < 2 ^ e then e else log2UpAux f (2 * e) n

/-- Binary search for the largest `e` with `2^e ≤ n`, maintaining
`2^lo ≤ n < 2^hi`. -/
def log2Search : ℕ → ℕ → ℕ → ℕ → ℕ
  | 0, lo, _, _ => lo
  | f + 1, lo, hi, n =>
    if hi ≤ lo + 1 then lo
    else
      let mid := (lo + hi) / 2
      if 2 ^ mid ≤ n then log2Search f mid hi n else log2Search f lo mid n

/-- Floor of the base-2 logarithm of a positive natural number (exact for
every `n`; the doubling bound keeps the recursion depth logarithmic). -/
def natLog2F (n : ℕ) : ℕ :=
  if n ≤ 1 then 0 else log2Search 64 0 (log2UpAux 64 1 n) n

/-- Binary search for the 2-adic valuation, maintaining `2^lo ∣ n` and
`¬ 2^hi ∣ n`. -/
def twoValSearch : ℕ → ℕ → ℕ → ℕ → ℕ
  | 0, lo, _, _ => lo
  | f + 1, lo, hi, n =>
    if hi ≤ lo + 1 then lo
    else
      let mid := (lo + hi) / 2
      if n % 2 ^ mid = 0 then twoValSearch f mid hi n else twoValSearch f lo mid n

/-- 2-adic valuation of a positive natural number below `2^4096` (every float
magnitude is below `2^2099`). -/
def twoVal (n : ℕ) : ℕ :=
  if n = 0 then 0 else twoValSearch 13 0 4096 n

/-- Newton iteration for the integer square root: starting from `x ≥ √n`, the
sequence `(x + n/x)/2` decreases to `⌊√n⌋` and the loop stops at the first
non-decrease. -/
def natSqrtAux : ℕ → ℕ → ℕ → ℕ
  | 0, _, x => x
  | f + 1, n, x =>
    let y := (x + n / x) / 2
    if y < x then natSqrtAux f n y else x

/-- Integer square root `⌊√n⌋` (the initial iterate `2^(⌊log2 n⌋/2 + 1)`
exceeds `√n`). -/
def natSqrt (n : ℕ) : ℕ :=
  if n ≤ 1 then n else natSqrtAux 10000 n (2 ^ (natLog2F n / 2 + 1))

/-- Round the rational `n / d` to the nearest integer, ties to even. -/
def rhe (n d : ℕ) : ℕ :=
  let q := n / d
  let r := n % d
  if 2 * r < d then q
  else if d < 2 * r then q + 1
  else if q % 2 = 0 then q else q + 1

/-! ## IEEE-754 binary64 (`float`) -/

/-- A Python float.  A finite value is `(-1)^neg * mag * 2^-1074`; every
magnitude produced below is representable in binary64 (53-bit significand),
and `finite true 0` is `-0.0`. -/
inductive Dbl where
  | finite (neg : Bool) (mag : ℕ)
  | inf (neg : Bool)
  | nan
  deriving DecidableEq

/-- `2^e ≤ n / d`, for positive `n`, `d`. -/
def pow2le (e : Int) (n d : ℕ) : Bool :=
  if 0 ≤ e then decide (d * 2 ^ e.toNat ≤ n) else decide (d ≤ n * 2 ^ (-e).toNat)

/-- `⌊log2 (n / d)⌋` for positive `n`, `d`: the bit-length estimate is off by
at most one and is corrected by an exact comparison. -/
def floorLog2Q (n d : ℕ) : Int :=
  let e0 : Int := (natLog2F n : Int) - (natLog2F d : Int)
  if pow2le e0 n d then e0 else e0 - 1

/-- Round the exact rational `num / den` (`den > 0`) to the nearest binary64
value, ties to even, overflowing to infinity.  An exact zero result is `+0.0`
(callers implement the IEEE sign-of-zero rules where they differ). -/
def roundRat (num : Int) (den : ℕ) : Dbl :=
  if num = 0 then .finite false 0
  else
    let n := num.natAbs
    let neg := decide (num < 0)
    let e := floorLog2Q n den
    if e < -1022 then
      .finite neg (rhe (n * 2 ^ 1074) den)
    else
      let s : Int := 52 - e
      let m := if 0 ≤ s then rhe (n * 2 ^ s.toNat) den else rhe n (den * 2 ^ (-s).toNat)
      let m2 := if m = 2 ^ 53 then 2 ^ 52 else m
      let e2 := if m = 2 ^ 53 then e + 1 else e
      if 1023 < e2 then .inf neg
      else .finite neg (m2 * 2 ^ (e2 - 52 + 1074).toNat)

/-- The correctly rounded (nearest, ties to even) binary64 square root of the
positive rational `n / d`.  The significand is found by an exact integer
square root and the rounding direction by comparing the square of the halfway
point with the exact value; overflow and subnormals cannot occur. -/
def sqrtRat (n d : ℕ) : Dbl :=
  let l := floorLog2Q n d
  let e0 : Int := (l + 2200) / 2 - 1100
  let esq := if pow2le (2 * (e0 + 1)) n d then e0 + 1
    else if pow2le (2 * e0) n d then e0 else e0 - 1
  let s : Int := 52 - esq
  let a := n * 2 ^ (if 0 ≤ 2 * s then (2 * s).toNat else 0)
  let b := d * 2 ^ (if 0 ≤ 2 * s then 0 else (-(2 * s)).toNat)
  let m0 := natSqrt (a * b) / b
  let halfSq := b * (2 * m0 + 1) ^ 2
  let m := if halfSq < 4 * a then m0 + 1
    else if 4 * a < halfSq then m0
    else if m0 % 2 = 0 then m0 else m0 + 1
  let m2 := if m = 2 ^ 53 then 2 ^ 52 else m
  let es2 := if m = 2 ^ 53 then esq + 1 else esq
  Dbl.finite false (m2 * 2 ^ (es2 - 52 + 1074).toNat)

/-! ## Exceptions -/

/-- The exceptions the evaluator can raise. -/
inductive PyExc where
  | zeroDiv (msg : String)
  | valueError (msg : String)
  | overflowError (msg : String)
  | syntaxError (msg : String)
  | modelGap (msg : String)
  deriving DecidableEq

/-- `str(e)` for a caught exception (syntax-error texts are abbreviated
relative to CPython, which appends location information). -/
def excMsg : PyExc → String
  | .zeroDiv m => m
  | .valueError m => m
  | .overflowError m => m
  | .syntaxError m => m
  | .modelGap m => m

/-! ## Python numeric values -/

/-- A Python number reachable in this evaluator: an `int` or a `float`. -/
inductive PyVal where
  | intV (n : Int)
  | floatV (d : Dbl)
  deriving DecidableEq

/-- `float(n)` for an int `n`: round to nearest, raising `OverflowError` when
the result would be infinite, as CPython does. -/
def intToDbl (n : Int) : Except PyExc Dbl :=
  match roundRat n 1 with
  | .inf _ => .error (.overflowError "int too large to convert to float")
  | d => .ok d

/-- Coerce a Python number to a float (ints may raise `OverflowError`). -/
def valToDbl : PyVal → Except PyExc Dbl
  | .intV n => intToDbl n
  | .floatV d => .ok d

/-- The float `1.0`. -/
def dOne : Dbl := .finite false (2 ^ 1074)

/-- The float `+0.0`. -/
def dZero : Dbl := .finite false 0

/-- The magnitude of the float `0.5`. -/
def halfMag : ℕ := 2 ^ 1073

/-- Whether a float is a (signed) zero. -/
def dIsZero : Dbl → Bool
  | .finite _ 0 => true
  | _ => false

/-- Float negation (sign flip; `-nan` is nan). -/
def dNegD : Dbl → Dbl
  | .finite n m => .finite (!n) m
  | .inf n => .inf (!n)
  | .nan => .nan

/-- The integer value of a float, when it is integral. -/
def dblIntVal : Dbl → Option Int
  | .finite neg mag =>
    if mag % 2 ^ 1074 = 0 then
      some ((if neg then -1 else 1) * (mag / 2 ^ 1074 : ℕ))
    else none
  | _ => none

/-- Whether a float is an odd integer. -/
def dblOddInt (w : Dbl) : Bool :=
  match dblIntVal w with
  | some t => decide (t % 2 = 1)
  | none => false

/-- Whether a (nonzero, non-nan) float is positive. -/
def dPosB : Dbl → Bool
  | .finite n _ => !n
  | .inf n => !n
  | .nan => false

/-- Whether a (nonzero, non-nan) float is negative. -/
def dNegB : Dbl → Bool
  | .finite n _ => n
  | .inf n => n
  | .nan => false

/-- Whether the absolute value of a float is exactly one. -/
def dAbsEqOne : Dbl → Bool
  | .finite _ m => m == 2 ^ 1074
  | _ => false

/-- Whether the absolute value of a float exceeds one. -/
def dAbsGtOne : Dbl → Bool
  | .finite _ m => decide (2 ^ 1074 < m)
  | .inf _ => true
  | .nan => false

/-- The signed magnitude of a finite float, in units of `2^-1074`. -/
def sgnMag (neg : Bool) (m : ℕ) : Int :=
  if neg then -(m : Int) else (m : Int)

/-- IEEE addition: the exact sum rounded to nearest (overflow gives infinity,
as CPython's float addition does).  An exact-zero sum is `+0.0` unless both
addends are `-0.0`. -/
def dAdd (x y : Dbl) : Dbl :=
  match x, y with
  | .nan, _ => .nan
  | _, .nan => .nan
  | .inf nx, .inf ny => if nx = ny then .inf nx else .nan
  | .inf nx, .finite _ _ => .inf nx
  | .finite _ _, .inf ny => .inf ny
  | .finite nx mx, .finite ny my =>
    let k := sgnMag nx mx + sgnMag ny my
    if k = 0 then .finite (nx && ny) 0 else roundRat k (2 ^ 1074)

/-- IEEE multiplication (exact product rounded; the sign of a zero result is
the exclusive or of the operand signs). -/
def dMul (x y : Dbl) : Dbl :=
  match x, y with
  | .nan, _ => .nan
  | _, .nan => .nan
  | .inf nx, .inf ny => .inf (nx != ny)
  | .inf nx, .finite ny my => if my = 0 then .nan else .inf (nx != ny)
  | .finite nx mx, .inf ny => if mx = 0 then .nan else .inf (nx != ny)
  | .finite nx mx, .finite ny my =>
    if mx = 0 ∨ my = 0 then .finite (nx != ny) 0
    else roundRat (sgnMag (nx != ny) (mx * my)) (2 ^ 2148)

/-- IEEE division for a nonzero divisor (callers raise `ZeroDivisionError` on
a zero divisor first, as CPython does). -/
def dDiv (x y : Dbl) : Dbl :=
  match x, y with
  | .nan, _ => .nan
  | _, .nan => .nan
  | .inf _, .inf _ => .nan
  | .inf nx, .finite ny _ => .inf (nx != ny)
  | .finite nx _, .inf ny => .finite (nx != ny) 0
  | .finite nx mx, .finite ny my =>
    if mx = 0 then .finite (nx != ny) 0
    else roundRat (sgnMag (nx != ny) mx) my

/-- The finite-base, integral-exponent case of float power: decidable
over/underflow from magnitude bounds, otherwise the exact rational power
rounded to nearest; overflow raises `OverflowError` exactly as CPython's
`float_pow` errno check does.  `mv ≠ 0` and `t ≠ 0`. -/
def powIntExp (nv : Bool) (mv : ℕ) (t : Int) : Except PyExc Dbl :=
  let negRes := nv && decide (t % 2 = 1)
  let l : Int := (natLog2F mv : Int) - 1074
  let lo := if 0 ≤ t then t * l else t * (l + 1)
  let hi := if 0 ≤ t then t * (l + 1) else t * l
  if 1025 ≤ lo then .error (.overflowError "(34, \x27Numerical result out of range\x27)")
  else if hi ≤ -1080 then .ok (.finite negRes 0)
  else if t.natAbs ≤ 65536 then
    let z := twoVal mv
    let mOdd := mv / 2 ^ z
    let e : Int := ((z : Int) - 1074) * t
    let base := mOdd ^ t.natAbs
    let n : ℕ := if 0 ≤ t then base else 1
    let d : ℕ := if 0 ≤ t then 1 else base
    let n2 := if 0 ≤ e then n * 2 ^ e.toNat else n
    let d2 := if 0 ≤ e then d else d * 2 ^ (-e).toNat
    match roundRat (if negRes then -(n2 : Int) else (n2 : Int)) d2 with
    | .inf _ => .error (.overflowError "(34, \x27Numerical result out of range\x27)")
    | r => .ok r
  else .error (.modelGap "integral exponent outside the tractable window of the exact model")

/-- CPython `float_pow`, following its special-case order: `v ** 0 = 1.0`
(even for nan), nan propagation with `1 ** nan = 1.0`, the infinite-exponent
and infinite-base rules, zero base (negative exponent raises
`ZeroDivisionError`; an odd integral exponent keeps the sign of `-0.0`), the
promotion of a negative base with non-integral exponent to a complex result
(outside this model), and the libm path: exact rounding for integral
exponents, correctly rounded square root for exponent `±0.5`, and a model gap
for other fractional exponents, whose value the platform libm determines. -/
def dPowE (v w : Dbl) : Except PyExc Dbl :=
  if dIsZero w then .ok dOne
  else
    match v, w with
    | .nan, _ => .ok .nan
    | _, .nan => .ok (if v = dOne then dOne else .nan)
    | _, .inf nw =>
      if dAbsEqOne v then .ok dOne
      else if dAbsGtOne v then .ok (if nw then dZero else .inf false)
      else .ok (if nw then .inf false else dZero)
    | .inf nv, ww =>
      if dPosB ww then .ok (.inf (nv && dblOddInt ww))
      else .ok (.finite (nv && dblOddInt ww) 0)
    | .finite nv 0, ww =>
      if dNegB ww then .error (.zeroDiv "0.0 cannot be raised to a negative power")
      else .ok (.finite (nv && dblOddInt ww) 0)
    | .finite nv mv, ww =>
      match dblIntVal ww with
      | some t => powIntExp nv mv t
      | none =>
        if nv then
          .error (.modelGap "negative base with a non-integral exponent: float power promotes to a complex result, outside this model")
        else if ww = Dbl.finite false halfMag then .ok (sqrtRat mv (2 ^ 1074))
        else if ww = Dbl.finite true halfMag then .ok (sqrtRat (2 ^ 1074) mv)
        else .error (.modelGap "non-integral exponent other than 0.5: the result depends on the platform libm, outside this model")

/-! ## The `operators` table entries -/

/-- `operator.add`: `int + int` stays `int`, otherwise both operands become
floats (an int too large to convert raises `OverflowError`). -/
def pyAdd (x y : PyVal) : Except PyExc PyVal :=
  match x, y with
  | .intV a, .intV b => .ok (.intV (a + b))
  | _, _ => do
    let dx ← valToDbl x
    let dy ← valToDbl y
    .ok (.floatV (dAdd dx dy))

/-- `operator.sub` (`x - y` is `x + (-y)` in IEEE arithmetic, signed zeros
included). -/
def pySub (x y : PyVal) : Except PyExc PyVal :=
  match x, y with
  | .intV a, .intV b => .ok (.intV (a - b))
  | _, _ => do
    let dx ← valToDbl x
    let dy ← valToDbl y
    .ok (.floatV (dAdd dx (dNegD dy)))

/-- `operator.mul`. -/
def pyMul (x y : PyVal) : Except PyExc PyVal :=
  match x, y with
  | .intV a, .intV b => .ok (.intV (a * b))
  | _, _ => do
    let dx ← valToDbl x
    let dy ← valToDbl y
    .ok (.floatV (dMul dx dy))

/-- `operator.truediv`: always a float.  int/int is the correctly rounded
quotient, raising `ZeroDivisionError` on a zero divisor and `OverflowError`
when the quotient exceeds the float range, as CPython's `long_true_divide`
does; with a float involved, the int operands are converted first (possibly
raising `OverflowError`) and a zero divisor raises `ZeroDivisionError`. -/
def pyDiv (x y : PyVal) : Except PyExc PyVal :=
  match x, y with
  | .intV a, .intV b =>
    if b = 0 then .error (.zeroDiv "division by zero")
    else
      match roundRat (if b < 0 then -a else a) b.natAbs with
      | .inf _ => .error (.overflowError "integer division result too large for a float")
      | d => .ok (.floatV d)
  | _, _ => do
    let dx ← valToDbl x
    let dy ← valToDbl y
    if dIsZero dy then .error (.zeroDiv "float division by zero")
    else .ok (.floatV (dDiv dx dy))

/-- `operator.neg`. -/
def pyNeg (x : PyVal) : Except PyExc PyVal :=
  match x with
  | .intV a => .ok (.intV (-a))
  | .floatV d => .ok (.floatV (dNegD d))

/-- `operator.pow`: `int ** nonnegative int` is an exact `int`; a negative
int exponent and every float case go through float power after converting the
int operands (CPython's `long_pow` and `float_pow`). -/
def pyPow (x y : PyVal) : Except PyExc PyVal :=
  match x, y with
  | .intV a, .intV b =>
    if 0 ≤ b then .ok (.intV (a ^ b.toNat))
    else do
      let dx ← intToDbl a
      let dy ← intToDbl b
      let r ← dPowE dx dy
      .ok (.floatV r)
  | _, _ => do
    let dx ← valToDbl x
    let dy ← valToDbl y
    let r ← dPowE dx dy
    .ok (.floatV r)

/-! ## Rendering values as text (`str(result)`) -/

/-- The decimal digit characters. -/
def digitChar : ℕ → Char
  | 0 => '0'
  | 1 => '1'
  | 2 => '2'
  | 3 => '3'
  | 4 => '4'
  | 5 => '5'
  | 6 => '6'
  | 7 => '7'
  | 8 => '8'
  | 9 => '9'
  | _ => '0'

/-- Fuel-driven decimal rendering of a natural number (most significant digit
first); the fuel is an upper bound on the number of digits. -/
def natDigsAux : ℕ → ℕ → List Char → List Char
  | 0, n, acc => digitChar (n % 10) :: acc
  | f + 1, n, acc =>
    if n < 10 then digitChar (n % 10) :: acc
    else natDigsAux f (n / 10) (digitChar (n % 10) :: acc)

/-- Decimal digits of a natural number. -/
def natDigs (n : ℕ) : List Char := natDigsAux n n []

/-- `str` of a Python `int`. -/
def intChars (n : Int) : List Char :=
  (if n < 0 then ['-'] else []) ++ natDigs n.natAbs

/-- Left-pad a digit list with zeros to a given width. -/
def padZeros (k : ℕ) (ds : List Char) : List Char :=
  List.replicate (k - ds.length) '0' ++ ds

/-- The exponent suffix of scientific notation: an explicit sign and at least
two exponent digits, as CPython prints (`1e+16`, `1e-05`). -/
def expChars (e : Int) : List Char :=
  (if e < 0 then '-' else '+') :: padZeros 2 (natDigs e.natAbs)

/-- `10^p ≤ mag * 2^-1074`. -/
def tenLe (mag : ℕ) (p : Int) : Bool :=
  if 0 ≤ p then decide (10 ^ p.toNat * 2 ^ 1074 ≤ mag)
  else decide (2 ^ 1074 ≤ mag * 10 ^ (-p).toNat)

/-- `⌊log10 (mag * 2^-1074)⌋` for positive `mag`: a linear estimate from the
binary exponent, corrected by exact comparisons (the estimate is within two of
the truth over the double range). -/
def floorLog10 (mag : ℕ) : Int :=
  let l : Int := (natLog2F mag : Int) - 1074
  let p0 := Int.fdiv (l * 30103) 100000
  if tenLe mag (p0 + 2) then p0 + 2
  else if tenLe mag (p0 + 1) then p0 + 1
  else if tenLe mag p0 then p0
  else if tenLe mag (p0 - 1) then p0 - 1
  else p0 - 2

/-- Whether the decimal `dd * 10^ex` rounds (nearest, ties even) back to the
positive double with magnitude `mag`. -/
def rtOK (mag : ℕ) (dd : ℕ) (ex : Int) : Bool :=
  decide ((if 0 ≤ ex then roundRat (dd * 10 ^ ex.toNat : ℕ) 1
    else roundRat (dd : ℕ) (10 ^ (-ex).toNat)) = Dbl.finite false mag)

/-- The shortest decimal digits that round back to the double `mag * 2^-1074`
(CPython repr): for each length `k` from one to seventeen, the two nearest
`k`-digit decimals are tested for round-trip; among round-trippers the one
closer to the true value wins, ties to the even digit string.  Returns the
digit value and the decimal-point position (value = `0.digits * 10^decpt`). -/
def shortestDigits (mag : ℕ) (decpt : Int) : ℕ → ℕ → ℕ × Int
  | 0, _ => (mag, decpt)
  | f + 1, k =>
    let x : Int := (k : Int) - decpt
    let num := mag * 10 ^ (if 0 ≤ x then x.toNat else 0)
    let den := 2 ^ 1074 * 10 ^ (if 0 ≤ x then 0 else (-x).toNat)
    let d0 := num / den
    let r := num % den
    let ex := decpt - (k : Int)
    let ok0 := rtOK mag d0 ex
    let ok1 := rtOK mag (d0 + 1) ex
    let pick : ℕ :=
      if ok0 && ok1 then
        if 2 * r < den then d0
        else if den < 2 * r then d0 + 1
        else if d0 % 2 = 0 then d0 else d0 + 1
      else if ok0 then d0
      else d0 + 1
    if ok0 || ok1 then
      if pick = 10 ^ k then (10 ^ (k - 1), decpt + 1) else (pick, decpt)
    else shortestDigits mag decpt f (k + 1)

/-- CPython float formatting of a digit list with decimal-point position
`decpt` (value = `0.digits * 10^decpt`): fixed-point when `-3 ≤ decpt ≤ 16`,
scientific notation otherwise; an integral fixed-point value gets a trailing
`.0`. -/
def formatFloat (ds : List Char) (decpt : Int) : List Char :=
  if 16 < decpt ∨ decpt < -3 then
    ds.take 1 ++ (if 1 < ds.length then '.' :: ds.drop 1 else []) ++
      'e' :: expChars (decpt - 1)
  else if decpt ≤ 0 then
    '0' :: '.' :: (List.replicate (-decpt).toNat '0' ++ ds)
  else if (ds.length : Int) ≤ decpt then
    ds ++ List.replicate (decpt.toNat - ds.length) '0' ++ ['.', '0']
  else
    ds.take decpt.toNat ++ '.' :: ds.drop decpt.toNat

/-- `str` of a nonnegative finite float given by its magnitude. -/
def finChars (mag : ℕ) : List Char :=
  if mag = 0 then ['0', '.', '0']
  else
    formatFloat (natDigs (shortestDigits mag (floorLog10 mag + 1) 18 1).1)
      (shortestDigits mag (floorLog10 mag + 1) 18 1).2

/-- `str` of a Python float: `nan`, signed `inf`, or the shortest
round-tripping decimal with a sign. -/
def dblRepr : Dbl → String
  | .nan => String.mk ['n', 'a', 'n']
  | .inf neg => String.mk ((if neg then ['-'] else []) ++ ['i', 'n', 'f'])
  | .finite neg mag => String.mk ((if neg then ['-'] else []) ++ finChars mag)

/-- `str(result)` for a Python number. -/
def pyStr : PyVal → String
  | .intV n => String.mk (intChars n)
  | .floatV d => dblRepr d

/-! ## The Python expression AST (`ast.parse(expression, mode='eval')`)

The grammar is CPython's expression grammar restricted to the token set
reachable through the character whitelist.  The root `ast.Expression` wrapper
(whose `eval_expr` case simply recurses into `body`) is folded into the parse
result. -/

/-- Binary operator tags reachable from the whitelisted characters. -/
inductive BKind where
  | add
  | sub
  | mult
  | div
  | floorDiv
  | pow
  deriving DecidableEq

/-- `type(node.op).__name__` for a binary operator. -/
def bkindName : BKind → String
  | .add => "Add"
  | .sub => "Sub"
  | .mult => "Mult"
  | .div => "Div"
  | .floorDiv => "FloorDiv"
  | .pow => "Pow"

/-- Unary operator tags reachable from the whitelisted characters. -/
inductive UKind where
  | uadd
  | usub
  deriving DecidableEq

/-- `type(node.op).__name__` for a unary operator. -/
def ukindName : UKind → String
  | .uadd => "UAdd"
  | .usub => "USub"

/-- The AST node kinds reachable from the whitelisted characters: numeric
constants, binary and unary operations, the empty tuple `()` and the
`...` (Ellipsis) constant. -/
inductive Ast where
  | num (v : PyVal)
  | binOp (op : BKind) (l r : Ast)
  | unaryOp (op : UKind) (e : Ast)
  | tuple
  | ellipsisC
  deriving DecidableEq

/-- The `operators` dictionary of `_run`, restricted to binary operators:
`Add`, `Sub`, `Mult`, `Div` (true division) and `Pow` are present, `FloorDiv`
is not. -/
def binOpTable : BKind → Option (PyVal → PyVal → Except PyExc PyVal)
  | .add => some pyAdd
  | .sub => some pySub
  | .mult => some pyMul
  | .div => some pyDiv
  | .pow => some pyPow
  | .floorDiv => none

/-- The `operators` dictionary of `_run`, restricted to unary operators: only
`USub` (unary minus) is present; `UAdd` is not. -/
def unOpTable : UKind → Option (PyVal → Except PyExc PyVal)
  | .usub => some pyNeg
  | .uadd => none

/-- The `eval_expr` visitor of `_run`: numbers evaluate to their value; a
binary or unary node first looks its operator up in the table (raising
`ValueError("Unsupported operation: …")` on a miss) and then evaluates its
children left to right; any other node kind raises
`ValueError("Unsupported node type: …")`. -/
def eval_expr : Ast → Except PyExc PyVal
  | .num v => .ok v
  | .binOp op l r =>
    match binOpTable op with
    | none => .error (.valueError ("Unsupported operation: " ++ bkindName op))
    | some f =>
      match eval_expr l with
      | .error exc => .error exc
      | .ok a =>
        match eval_expr r with
        | .error exc => .error exc
        | .ok b => f a b
  | .unaryOp op e =>
    match unOpTable op with
    | none => .error (.valueError ("Unsupported operation: " ++ ukindName op))
    | some f =>
      match eval_expr e with
      | .error exc => .error exc
      | .ok a => f a
  | .tuple => .error (.valueError "Unsupported node type: Tuple")
  | .ellipsisC => .error (.valueError "Unsupported node type: Constant")

/-! ## Tokenizer and parser -/

/-- Tokens of the whitelisted expression fragment.  `newlineTok` is a NEWLINE
token: a line break at parenthesis depth zero. -/
inductive Tok where
  | num (v : PyVal)
  | plus
  | minus
  | star
  | slash
  | dstar
  | dslash
  | lparen
  | rparen
  | ellipsisTok
  | newlineTok
  deriving DecidableEq

/-- The binary64 value of a decimal literal `ip . fp` (CPython stores the
correctly rounded nearest double; a literal beyond the range is infinity). -/
def decVal (ip fp : List Char) : Dbl :=
  roundRat (natOfDigits ip * 10 ^ fp.length + natOfDigits fp : ℕ) (10 ^ fp.length)

/-- CPython's tokenizer on the whitelisted characters.  `**` and `//` pair
greedily; numeric literals cover `123`, `1.5`, `.5` and `5.`; a decimal
integer literal with a leading zero and a later nonzero digit is a syntax
error; `...` is the Ellipsis token.  Space, tab and form feed are skipped; a
newline is skipped inside parentheses (implicit line joining) and is a NEWLINE
token at depth zero; any other whitelisted whitespace character is a
tokenization error, as in CPython.  The fuel is consumed once per
character. -/
def tokenize : ℕ → ℕ → List Char → Except PyExc (List Tok)
  | 0, _, _ => .error (.syntaxError "tokenizer fuel exhausted")
  | _, _, [] => .ok []
  | f + 1, depth, c :: cs =>
    if isTokSpace c then tokenize f depth cs
    else if c == '\n' || c == '\r' then
      if depth = 0 then (fun ts => Tok.newlineTok :: ts) <$> tokenize f depth cs
      else tokenize f depth cs
    else if c == '(' then (fun ts => Tok.lparen :: ts) <$> tokenize f (depth + 1) cs
    else if c == ')' then (fun ts => Tok.rparen :: ts) <$> tokenize f (depth - 1) cs
    else if c == '+' then (fun ts => Tok.plus :: ts) <$> tokenize f depth cs
    else if c == '-' then (fun ts => Tok.minus :: ts) <$> tokenize f depth cs
    else if c == '*' then
      match cs with
      | '*' :: cs2 => (fun ts => Tok.dstar :: ts) <$> tokenize f depth cs2
      | _ => (fun ts => Tok.star :: ts) <$> tokenize f depth cs
    else if c == '/' then
      match cs with
      | '/' :: cs2 => (fun ts => Tok.dslash :: ts) <$> tokenize f depth cs2
      | _ => (fun ts => Tok.slash :: ts) <$> tokenize f depth cs
    else if c.isDigit then
      let ip := (c :: cs).takeWhile Char.isDigit
      let r1 := (c :: cs).dropWhile Char.isDigit
      match r1 with
      | '.' :: r2 =>
        let fp := r2.takeWhile Char.isDigit
        let r3 := r2.dropWhile Char.isDigit
        (fun ts => Tok.num (.floatV (decVal ip fp)) :: ts) <$> tokenize f depth r3
      | _ =>
        if ip.head? == some '0' && ip.any (fun d => d != '0') then
          .error (.syntaxError "leading zeros in decimal integer literals are not permitted")
        else (fun ts => Tok.num (.intV (natOfDigits ip)) :: ts) <$> tokenize f depth r1
    else if c == '.' then
      match cs with
      | c2 :: r2 =>
        if c2.isDigit then
          let fp := (c2 :: r2).takeWhile Char.isDigit
          let r3 := (c2 :: r2).dropWhile Char.isDigit
          (fun ts => Tok.num (.floatV (decVal [] fp)) :: ts) <$> tokenize f depth r3
        else
          match c2, r2 with
          | '.', '.' :: r3 => (fun ts => Tok.ellipsisTok :: ts) <$> tokenize f depth r3
          | _, _ => .error (.syntaxError "invalid syntax")
      | [] => .error (.syntaxError "invalid syntax")
    else .error (.syntaxError "unexpected character")

mutual

/-- `expression`: a term followed by left-associated `+`/`-` terms. -/
def parseExpr : ℕ → List Tok → Except PyExc (Ast × List Tok)
  | 0, _ => .error (.syntaxError "parser fuel exhausted")
  | f + 1, ts => do
    let (l, ts1) ← parseTerm f ts
    parseAddLoop f l ts1

/-- Left-associative `+`/`-` chain. -/
def parseAddLoop : ℕ → Ast → List Tok → Except PyExc (Ast × List Tok)
  | 0, _, _ => .error (.syntaxError "parser fuel exhausted")
  | f + 1, l, .plus :: ts => do
    let (r, ts1) ← parseTerm f ts
    parseAddLoop f (.binOp .add l r) ts1
  | f + 1, l, .minus :: ts => do
    let (r, ts1) ← parseTerm f ts
    parseAddLoop f (.binOp .sub l r) ts1
  | _ + 1, l, ts => .ok (l, ts)

/-- `term`: a factor followed by left-associated `*`/`/`/`//` factors. -/
def parseTerm : ℕ → List Tok → Except PyExc (Ast × List Tok)
  | 0, _ => .error (.syntaxError "parser fuel exhausted")
  | f + 1, ts => do
    let (l, ts1) ← parseFactor f ts
    parseMulLoop f l ts1

/-- Left-associative `*`/`/`/`//` chain. -/
def parseMulLoop : ℕ → Ast → List Tok → Except PyExc (Ast × List Tok)
  | 0, _, _ => .error (.syntaxError "parser fuel exhausted")
  | f + 1, l, .star :: ts => do
    let (r, ts1) ← parseFactor f ts
    parseMulLoop f (.binOp .mult l r) ts1
  | f + 1, l, .slash :: ts => do
    let (r, ts1) ← parseFactor f ts
    parseMulLoop f (.binOp .div l r) ts1
  | f + 1, l, .dslash :: ts => do
    let (r, ts1) ← parseFactor f ts
    parseMulLoop f (.binOp .floorDiv l r) ts1
  | _ + 1, l, ts => .ok (l, ts)

/-- `factor`: unary `+`/`-` (binding looser than `**` on the left), else a
power. -/
def parseFactor : ℕ → List Tok → Except PyExc (Ast × List Tok)
  | 0, _ => .error (.syntaxError "parser fuel exhausted")
  | f + 1, .plus :: ts => do
    let (e, ts1) ← parseFactor f ts
    .ok (.unaryOp .uadd e, ts1)
  | f + 1, .minus :: ts => do
    let (e, ts1) ← parseFactor f ts
    .ok (.unaryOp .usub e, ts1)
  | f + 1, ts => parsePower f ts

/-- `power`: an atom, optionally `**` a factor (so `**` is right-associative
and its right operand may carry unary signs). -/
def parsePower : ℕ → List Tok → Except PyExc (Ast × List Tok)
  | 0, _ => .error (.syntaxError "parser fuel exhausted")
  | f + 1, ts => do
    let (b, ts1) ← parseAtom f ts
    match ts1 with
    | .dstar :: ts2 => do
      let (e, ts3) ← parseFactor f ts2
      .ok (.binOp .pow b e, ts3)
    | _ => .ok (b, ts1)

/-- `atom`: a number, `...`, the empty tuple `()`, or a parenthesised
expression. -/
def parseAtom : ℕ → List Tok → Except PyExc (Ast × List Tok)
  | 0, _ => .error (.syntaxError "parser fuel exhausted")
  | _ + 1, .num v :: ts => .ok (.num v, ts)
  | _ + 1, .ellipsisTok :: ts => .ok (.ellipsisC, ts)
  | _ + 1, .lparen :: .rparen :: ts => .ok (.tuple, ts)
  | f + 1, .lparen :: ts => do
    let (e, ts1) ← parseExpr f ts
    match ts1 with
    | .rparen :: ts2 => .ok (e, ts2)
    | _ => .error (.syntaxError "closing parenthesis expected")
  | _ + 1, _ => .error (.syntaxError "invalid syntax")

end

/-- `ast.parse(expression, mode='eval')` on a whitelisted string: tokenize,
skip leading blank lines, parse one expression, and require that only
trailing newlines remain (eval mode accepts a single logical line). -/
def pyParse (s : List Char) : Except PyExc Ast := do
  let ts0 ← tokenize (s.length + 1) 0 s
  let ts := ts0.dropWhile (fun t => decide (t = Tok.newlineTok))
  let (a, rest) ← parseExpr (8 * (ts.length + 1)) ts
  if rest.all (fun t => decide (t = Tok.newlineTok)) then .ok a
  else .error (.syntaxError "invalid syntax")

/-! ## The `_run` pipeline -/

/-- The catch-all of `_run`: `f"❗ Error evaluating expression: {e}"`. -/
def errWrap (m : String) : String := "❗ Error evaluating expression: " ++ m

/-- Render an evaluation outcome: `str(result)` on success, the catch-all
message on a raised exception. -/
def renderResult (r : Except PyExc PyVal) : String :=
  match r with
  | .ok v => pyStr v
  | .error exc => errWrap (excMsg exc)

/-- The square-root shortcut result: `str(number ** 0.5)` (a raise inside the
power lands in the catch-all). -/
def sqrtShortcut (n : ℕ) : String :=
  renderResult (pyPow (.intV n) (.floatV (Dbl.finite false (2 ^ 1073))))

/-- `CalculatorTool._run` after quote stripping: the square-root shortcut, then
the character whitelist, then parse and evaluate, with the catch-all turning
any exception into an error string. -/
def calcRunCore (e : List Char) : String :=
  if sqrtTrigger e then
    match firstDigitRun e with
    | some ds => sqrtShortcut (natOfDigits ds)
    | none => "❗ Could not identify a number to calculate square root."
  else if !charsOk e then "❗ Invalid characters in expression."
  else
    match pyParse e with
    | .error exc => errWrap (excMsg exc)
    | .ok a => renderResult (eval_expr a)

/-- `CalculatorTool._run`. -/
def calcRun (expression : String) : String :=
  calcRunCore (stripQuotes expression.toList)

/-! ## Specification-side definitions -/

/-- Whether every node of a tree is in the evaluable set: numeric constants,
the five whitelisted binary operators and unary minus. -/
def astAllowed : Ast → Bool
  | .num _ => true
  | .binOp op l r => (binOpTable op).isSome && astAllowed l && astAllowed r
  | .unaryOp op e => (unOpTable op).isSome && astAllowed e
  | .tuple => false
  | .ellipsisC => false

/-- Modelled from the spec (section 4.1, step 6): direct bottom-up evaluation
of a tree built only from the evaluable operators — literals evaluate to their
value, binary nodes evaluate left then right and apply the operation, unary
minus negates.  This is the specification-side reference against which
`eval_expr` (the code's table-driven visitor) is compared. -/
def specEval : Ast → Except PyExc PyVal
  | .num v => .ok v
  | .binOp op l r =>
    match specEval l with
    | .error exc => .error exc
    | .ok a =>
      match specEval r with
      | .error exc => .error exc
      | .ok b =>
        match op with
        | .add => pyAdd a b
        | .sub => pySub a b
        | .mult => pyMul a b
        | .div => pyDiv a b
        | .pow => pyPow a b
        | .floorDiv => .error (.valueError "outside the evaluable operator set")
  | .unaryOp op e =>
    match specEval e with
    | .error exc => .error exc
    | .ok a =>
      match op with
      | .usub => pyNeg a
      | .uadd => .error (.valueError "outside the evaluable operator set")
  | .tuple => .error (.valueError "outside the evaluable operator set")
  | .ellipsisC => .error (.valueError "outside the evaluable operator set")

/-- Whether a tree contains a binary or unary operator node whose operator is
missing from the `operators` table. -/
def containsBad : Ast → Bool
  | .num _ => false
  | .binOp op l r => (binOpTable op).isNone || containsBad l || containsBad r
  | .unaryOp op e => (unOpTable op).isNone || containsBad e
  | .tuple => false
  | .ellipsisC => false

/-- Whether a tree contains a unary-plus node. -/
def containsUAdd : Ast → Bool
  | .num _ => false
  | .binOp _ l r => containsUAdd l || containsUAdd r
  | .unaryOp .uadd _ => true
  | .unaryOp .usub e => containsUAdd e
  | .tuple => false
  | .ellipsisC => false

/-- The character class `[0-9+\-*/(). ]` exactly as enumerated in the claim
about invalid characters: digits, the seven punctuation characters, and a
literal space only (not general whitespace). -/
def claimCharClass (c : Char) : Bool :=
  c.isDigit || c == '+' || c == '-' || c == '*' || c == '/' ||
  c == '(' || c == ')' || c == '.' || c == ' '

/-- Whether a string begins with the failure marker character. -/
def beginsWithMarker : String → Bool
  | ⟨[]⟩ => false
  | ⟨c :: _⟩ => c == '❗'

/-- Decidable equality for `Except`, used to evaluate the embedded program on
concrete inputs. -/
instance {ε α : Type} [DecidableEq ε] [DecidableEq α] :
    DecidableEq (Except ε α) := fun x y =>
  match x, y with
  | .ok a, .ok b =>
    if h : a = b then .isTrue (by rw [h]) else
      .isFalse (fun hc => by cases hc; exact h rfl)
  | .error a, .error b =>
    if h : a = b then .isTrue (by rw [h]) else
      .isFalse (fun hc => by cases hc; exact h rfl)
  | .ok _, .error _ => .isFalse (fun hc => by cases hc)
  | .error _, .ok _ => .isFalse (fun hc => by cases hc)

/-! ## Helper lemmas -/

theorem beginsWithMarker_errWrap (m : String) :
    beginsWithMarker (errWrap m) = true := by
  cases m with
  | mk d => rfl

theorem natDigsAux_shape :
    ∀ (f n : ℕ) (acc : List Char),
      ∃ m rest, m < 10 ∧ natDigsAux f n acc = digitChar m :: rest := by
  intro f
  induction f with
  | zero =>
    intro n acc
    exact ⟨n % 10, acc, Nat.mod_lt n (by norm_num), rfl⟩
  | succ f ih =>
    intro n acc
    by_cases h : n < 10
    · exact ⟨n % 10, acc, Nat.mod_lt n (by norm_num), by simp [natDigsAux, h]⟩
    · obtain ⟨m, rest, hm, he⟩ := ih (n / 10) (digitChar (n % 10) :: acc)
      exact ⟨m, rest, hm, by simp [natDigsAux, h, he]⟩

theorem natDigs_shape (n : ℕ) :
    ∃ m rest, m < 10 ∧ natDigs n = digitChar m :: rest :=
  natDigsAux_shape n n []

theorem digitChar_ne_marker : ∀ m : ℕ, (digitChar m == '❗') = false
  | 0 => rfl
  | 1 => rfl
  | 2 => rfl
  | 3 => rfl
  | 4 => rfl
  | 5 => rfl
  | 6 => rfl
  | 7 => rfl
  | 8 => rfl
  | 9 => rfl
  | _ + 10 => rfl

theorem formatFloat_shape (m : ℕ) (rest : List Char) (dp : Int) :
    (∃ r2, formatFloat (digitChar m :: rest) dp = digitChar m :: r2) ∨
    (∃ r2, formatFloat (digitChar m :: rest) dp = '0' :: r2) := by
  unfold formatFloat
  split
  · exact Or.inl ⟨_, rfl⟩
  · split
    · exact Or.inr ⟨_, rfl⟩
    · split
      · exact Or.inl ⟨_, rfl⟩
      · rename_i h1 h2 h3
        obtain ⟨k, hk⟩ : ∃ k, dp.toNat = k + 1 := ⟨dp.toNat - 1, by omega⟩
        rw [hk, List.take_succ_cons]
        exact Or.inl ⟨_, rfl⟩

theorem finChars_shape (mag : ℕ) :
    ∃ c r2, finChars mag = c :: r2 ∧ (c == '❗') = false := by
  unfold finChars
  split
  · exact ⟨'0', _, rfl, by decide⟩
  · obtain ⟨m, rest, _, he⟩ :=
      natDigs_shape (shortestDigits mag (floorLog10 mag + 1) 18 1).1
    rw [he]
    rcases formatFloat_shape m rest (shortestDigits mag (floorLog10 mag + 1) 18 1).2 with
      ⟨r2, hf⟩ | ⟨r2, hf⟩
    · exact ⟨digitChar m, r2, hf, digitChar_ne_marker m⟩
    · exact ⟨'0', r2, hf, by decide⟩

theorem pyStr_no_marker (v : PyVal) : beginsWithMarker (pyStr v) = false := by
  cases v with
  | intV n =>
    by_cases h : n < 0
    · simp [pyStr, intChars, h, beginsWithMarker]
    · obtain ⟨m, rest, _, he⟩ := natDigs_shape n.natAbs
      simp [pyStr, intChars, h, he, beginsWithMarker, digitChar_ne_marker]
  | floatV d =>
    cases d with
    | nan => decide
    | inf neg => cases neg <;> decide
    | finite neg mag =>
      obtain ⟨c, r2, he, hc⟩ := finChars_shape mag
      cases neg
      · simp [pyStr, dblRepr, he, beginsWithMarker, hc]
      · simp [pyStr, dblRepr, beginsWithMarker]

theorem calcRunCore_general (e : List Char) (a : Ast)
    (hsq : sqrtTrigger e = false) (hch : charsOk e = true)
    (hp : pyParse e = .ok a) :
    calcRunCore e = renderResult (eval_expr a) := by
  simp [calcRunCore, hsq, hch, hp]

theorem calcRunCore_sqrt_some (e ds : List Char) (ht : sqrtTrigger e = true)
    (hd : firstDigitRun e = some ds) :
    calcRunCore e = sqrtShortcut (natOfDigits ds) := by
  simp [calcRunCore, ht, hd]

theorem calcRunCore_sqrt_none (e : List Char) (ht : sqrtTrigger e = true)
    (hd : firstDigitRun e = none) :
    calcRunCore e = "❗ Could not identify a number to calculate square root." := by
  simp [calcRunCore, ht, hd]

theorem calcRunCore_invalid (e : List Char) (hsq : sqrtTrigger e = false)
    (hch : charsOk e = false) :
    calcRunCore e = "❗ Invalid characters in expression." := by
  simp [calcRunCore, hsq, hch]

theorem charsOk_false_of_any (e : List Char)
    (hbad : e.any (fun c => !allowedChar c) = true) : charsOk e = false := by
  unfold charsOk
  cases hA : e.all allowedChar
  · rw [Bool.and_false]
  · rcases List.any_eq_true.mp hbad with ⟨c, hc, hne⟩
    have hco : allowedChar c = true := List.all_eq_true.mp hA c hc
    simp [hco] at hne

theorem renderResult_marker (r : Except PyExc PyVal) :
    beginsWithMarker (renderResult r) = true ∨
    ∃ v, renderResult r = pyStr v ∧ beginsWithMarker (renderResult r) = false := by
  cases r with
  | ok v => exact Or.inr ⟨v, rfl, pyStr_no_marker v⟩
  | error exc => exact Or.inl (beginsWithMarker_errWrap (excMsg exc))

theorem eval_expr_eq_specEval (a : Ast) (h : astAllowed a = true) :
    eval_expr a = specEval a := by
  induction a with
  | num v => rfl
  | binOp op l r ihl ihr =>
    simp only [astAllowed, Bool.and_eq_true] at h
    obtain ⟨⟨hop, hl⟩, hr⟩ := h
    cases op
    case floorDiv => simp [binOpTable] at hop
    all_goals simp [eval_expr, specEval, binOpTable, ihl hl, ihr hr]
  | unaryOp op e ih =>
    simp only [astAllowed, Bool.and_eq_true] at h
    obtain ⟨hop, he⟩ := h
    cases op
    case uadd => simp [unOpTable] at hop
    case usub => simp [eval_expr, specEval, unOpTable, ih he]
  | tuple => simp [astAllowed] at h
  | ellipsisC => simp [astAllowed] at h

theorem eval_expr_ok_clean (a : Ast) (v : PyVal) (h : eval_expr a = .ok v) :
    containsBad a = false ∧ containsUAdd a = false := by
  induction a generalizing v with
  | num w => simp [containsBad, containsUAdd]
  | binOp op l r ihl ihr =>
    cases htab : binOpTable op with
    | none => simp [eval_expr, htab] at h
    | some f =>
      cases hl : eval_expr l with
      | error exc => simp [eval_expr, htab, hl] at h
      | ok x =>
        cases hr : eval_expr r with
        | error exc => simp [eval_expr, htab, hl, hr] at h
        | ok y =>
          obtain ⟨h1, h2⟩ := ihl x hl
          obtain ⟨h3, h4⟩ := ihr y hr
          simp [containsBad, containsUAdd, htab, h1, h2, h3, h4]
  | unaryOp op e ih =>
    cases htab : unOpTable op with
    | none => simp [eval_expr, htab] at h
    | some f =>
      cases he : eval_expr e with
      | error exc => simp [eval_expr, htab, he] at h
      | ok x =>
        obtain ⟨h1, h2⟩ := ih x he
        cases op
        case uadd => simp [unOpTable] at htab
        case usub => simp [containsBad, containsUAdd, htab, h1, h2]
  | tuple => simp [eval_expr] at h
  | ellipsisC => simp [eval_expr] at h

/-! ## Claim theorems -/

/-- Claim C1: for every input string that (after quote stripping) is not
intercepted by the square-root shortcut, passes the character whitelist and
parses as an arithmetic expression built only from the evaluable operators
(addition, subtraction, multiplication, true division, exponentiation, unary
minus), `_run` returns the decimal text of the value obtained by directly
evaluating the syntax tree bottom-up (`specEval`) in IEEE-754 binary64
arithmetic; the tree's shape is fixed by the parser, which implements
standard precedence with left-associativity for `+ - * /` and
right-associativity for `**` (witnessed by the two parse facts below); in
particular `_run("17 * (24 - 5)") = "323"`, `_run("144 ** 0.5") = "12.0"`,
and on the rounding cases `_run("1 / 3") = "0.3333333333333333"` and
`_run("0.1 + 0.2") = "0.30000000000000004"`. -/
theorem calcRun_valid_expression (s : String) (a : Ast) (v : PyVal)
    (hsq : sqrtTrigger (stripQuotes s.toList) = false)
    (hch : charsOk (stripQuotes s.toList) = true)
    (hp : pyParse (stripQuotes s.toList) = .ok a)
    (hal : astAllowed a = true)
    (hv : specEval a = .ok v) :
    calcRun s = pyStr v
    ∧ calcRun "17 * (24 - 5)" = "323"
    ∧ calcRun "144 ** 0.5" = "12.0"
    ∧ calcRun "1 / 3" = "0.3333333333333333"
    ∧ calcRun "0.1 + 0.2" = "0.30000000000000004"
    ∧ pyParse ("2 - 3 - 4".toList) =
        .ok (.binOp .sub (.binOp .sub (.num (.intV 2)) (.num (.intV 3))) (.num (.intV 4)))
    ∧ pyParse ("2 ** 3 ** 2".toList) =
        .ok (.binOp .pow (.num (.intV 2)) (.binOp .pow (.num (.intV 3)) (.num (.intV 2)))) := by
  refine ⟨?_, by decide, by decide, by decide, by decide, by decide, by decide⟩
  unfold calcRun
  rw [calcRunCore_general _ a hsq hch hp, eval_expr_eq_specEval a hal, hv]
  rfl

theorem calcRun_valid_expression_witness :
    calcRun "144 ** 0.5" = pyStr (PyVal.floatV (.finite false (12 * 2 ^ 1074)))
    ∧ calcRun "17 * (24 - 5)" = "323"
    ∧ calcRun "144 ** 0.5" = "12.0"
    ∧ calcRun "1 / 3" = "0.3333333333333333"
    ∧ calcRun "0.1 + 0.2" = "0.30000000000000004"
    ∧ pyParse ("2 - 3 - 4".toList) =
        .ok (.binOp .sub (.binOp .sub (.num (.intV 2)) (.num (.intV 3))) (.num (.intV 4)))
    ∧ pyParse ("2 ** 3 ** 2".toList) =
        .ok (.binOp .pow (.num (.intV 2)) (.binOp .pow (.num (.intV 3)) (.num (.intV 2)))) :=
  calcRun_valid_expression "144 ** 0.5"
    (.binOp .pow (.num (.intV 144)) (.num (.floatV (.finite false (2 ^ 1073)))))
    (.floatV (.finite false (12 * 2 ^ 1074)))
    (by decide) (by decide) (by decide) (by decide) (by decide)

/-- Claim C2: `_run` is a total function on strings (the model never raises),
and every result either begins with the failure marker `❗` or is the bare
numeric rendering `str(result)` of some value, which never begins with the
marker. -/
theorem calcRun_marker_discipline (s : String) :
    beginsWithMarker (calcRun s) = true ∨
    ∃ v : PyVal, calcRun s = pyStr v ∧ beginsWithMarker (calcRun s) = false := by
  unfold calcRun
  generalize stripQuotes s.toList = e
  cases h1 : sqrtTrigger e with
  | true =>
    cases h2 : firstDigitRun e with
    | some ds =>
      have hrw : calcRunCore e =
          renderResult (pyPow (.intV (natOfDigits ds))
            (.floatV (Dbl.finite false (2 ^ 1073)))) := by
        simp [calcRunCore, h1, h2, sqrtShortcut]
      rw [hrw]
      exact renderResult_marker _
    | none =>
      have hrw : calcRunCore e =
          "❗ Could not identify a number to calculate square root." := by
        simp [calcRunCore, h1, h2]
      rw [hrw]
      exact Or.inl (by decide)
  | false =>
    cases h3 : charsOk e with
    | false =>
      have hrw : calcRunCore e = "❗ Invalid characters in expression." := by
        simp [calcRunCore, h1, h3]
      rw [hrw]
      exact Or.inl (by decide)
    | true =>
      cases h4 : pyParse e with
      | error exc =>
        have hrw : calcRunCore e = errWrap (excMsg exc) := by
          simp [calcRunCore, h1, h3, h4]
        rw [hrw]
        exact Or.inl (beginsWithMarker_errWrap _)
      | ok a =>
        rw [calcRunCore_general e a h1 h3 h4]
        exact renderResult_marker _

theorem calcRun_marker_discipline_witness :
    beginsWithMarker (calcRun "3 * 3") = true ∨
    ∃ v : PyVal, calcRun "3 * 3" = pyStr v ∧
      beginsWithMarker (calcRun "3 * 3") = false :=
  calcRun_marker_discipline "3 * 3"

/-- Claim C3: whenever the quote-stripped input contains "sqrt" or
"square root" case-insensitively and contains a digit run, `_run` returns the
square-root-shortcut rendering `str(n ** 0.5)` of the first (leftmost) digit
run `n` — with no hypothesis about the character whitelist or the parser,
which are never consulted on this path.  The rendering is faithful for
non-perfect squares as well: `str(2 ** 0.5)` is the correctly rounded double
`"1.4142135623730951"`, and `str(144 ** 0.5) = "12.0"`. -/
theorem calcRun_sqrt_shortcut (s : String) (ds : List Char)
    (ht : sqrtTrigger (stripQuotes s.toList) = true)
    (hd : firstDigitRun (stripQuotes s.toList) = some ds) :
    calcRun s = sqrtShortcut (natOfDigits ds)
    ∧ sqrtShortcut 2 = "1.4142135623730951"
    ∧ sqrtShortcut 144 = "12.0" := by
  refine ⟨?_, by decide, by decide⟩
  unfold calcRun
  exact calcRunCore_sqrt_some _ ds ht hd

theorem calcRun_sqrt_shortcut_witness :
    calcRun "What is sqrt of 144 plus 99?" = sqrtShortcut 144
    ∧ sqrtShortcut 2 = "1.4142135623730951"
    ∧ sqrtShortcut 144 = "12.0" :=
  calcRun_sqrt_shortcut "What is sqrt of 144 plus 99?" ['1', '4', '4']
    (by decide) (by decide)

/-- Claim C4, counterexample to the claim as stated: the tab character in
`"1\t+2"` is outside the class `[0-9+\-*/(). ]` enumerated by the claim, the
square-root shortcut does not apply, and yet `_run` returns `"3"` rather than
the "invalid characters" error — because the code's whitelist `\s` admits all
whitespace, not just the space character. -/
theorem calcRun_charclass_cex :
    (stripQuotes ("1\t+2".toList)).any (fun c => !claimCharClass c) = true
    ∧ sqrtTrigger (stripQuotes ("1\t+2".toList)) = false
    ∧ calcRun "1\t+2" = "3"
    ∧ calcRun "1\t+2" ≠ "❗ Invalid characters in expression." :=
  ⟨by decide, by decide, by decide, by decide⟩

/-- Claim C4 as amended: for every input not pre-empted by the square-root
shortcut whose quote-stripped text contains any character outside the code's
whitelist class `[0-9+\-*/(). whitespace]`, `_run` returns the
"invalid characters" error without reaching the parser. -/
theorem calcRun_invalid_chars (s : String)
    (hsq : sqrtTrigger (stripQuotes s.toList) = false)
    (hbad : (stripQuotes s.toList).any (fun c => !allowedChar c) = true) :
    calcRun s = "❗ Invalid characters in expression." := by
  unfold calcRun
  exact calcRunCore_invalid _ hsq (charsOk_false_of_any _ hbad)

theorem calcRun_invalid_chars_witness :
    calcRun "2 ^ 3" = "❗ Invalid characters in expression." :=
  calcRun_invalid_chars "2 ^ 3" (by decide) (by decide)

/-- Claim C5, counterexample to the claim as stated: `"1 / 0 + 2 // 2"`
parses to a tree containing a `FloorDiv` node outside the evaluable set, yet
the returned error is the division-by-zero message — the left subtree fails
first, so the message does not name the unsupported operation. -/
theorem calcRun_unsupported_op_cex :
    pyParse (stripQuotes ("1 / 0 + 2 // 2".toList)) =
      .ok (.binOp .add (.binOp .div (.num (.intV 1)) (.num (.intV 0)))
            (.binOp .floorDiv (.num (.intV 2)) (.num (.intV 2))))
    ∧ containsBad (.binOp .add (.binOp .div (.num (.intV 1)) (.num (.intV 0)))
            (.binOp .floorDiv (.num (.intV 2)) (.num (.intV 2)))) = true
    ∧ calcRun "1 / 0 + 2 // 2" = "❗ Error evaluating expression: division by zero"
    ∧ containsSub (calcRun "1 / 0 + 2 // 2").toList ("FloorDiv".toList) = false :=
  ⟨by decide, by decide, by decide, by decide⟩

/-- Claim C5 as amended: whenever the parse succeeds and the tree contains an
operator node outside the evaluable set {Add, Sub, Mult, Div, Pow, USub},
`_run` returns an error string (never a value); evaluating any node whose
operator is missing from the table raises the error naming that operation, so
the message names the unsupported operation whenever such a node is the first
failure reached in evaluation order; the gate is reachable through the
character whitelist: `_run("7 // 2")` names `FloorDiv`. -/
theorem calcRun_unsupported_op (s : String) (a : Ast)
    (hsq : sqrtTrigger (stripQuotes s.toList) = false)
    (hch : charsOk (stripQuotes s.toList) = true)
    (hp : pyParse (stripQuotes s.toList) = .ok a)
    (hbad : containsBad a = true) :
    beginsWithMarker (calcRun s) = true
    ∧ (∀ (op : BKind) (l r : Ast), binOpTable op = none →
        eval_expr (.binOp op l r) =
          .error (.valueError ("Unsupported operation: " ++ bkindName op)))
    ∧ (∀ (op : UKind) (e : Ast), unOpTable op = none →
        eval_expr (.unaryOp op e) =
          .error (.valueError ("Unsupported operation: " ++ ukindName op)))
    ∧ calcRun "7 // 2" =
        "❗ Error evaluating expression: Unsupported operation: FloorDiv" := by
  refine ⟨?_, ?_, ?_, by decide⟩
  · unfold calcRun
    rw [calcRunCore_general _ a hsq hch hp]
    cases he : eval_expr a with
    | ok v => exact absurd ((eval_expr_ok_clean a v he).1) (by simp [hbad])
    | error exc => exact beginsWithMarker_errWrap (excMsg exc)
  · intro op l r hop
    simp [eval_expr, hop]
  · intro op e hop
    simp [eval_expr, hop]

theorem calcRun_unsupported_op_witness :
    beginsWithMarker (calcRun "7 // 2") = true :=
  (calcRun_unsupported_op "7 // 2"
    (.binOp .floorDiv (.num (.intV 7)) (.num (.intV 2)))
    (by decide) (by decide) (by decide) (by decide)).1

/-- Claim C6: whenever evaluation raises a `ZeroDivisionError` (in particular
a division with divisor zero), `_run` returns the generic catch-all wrapper
around the underlying failure's description — there is no special-cased
division message; in particular
`_run("5 / 0") = "❗ Error evaluating expression: division by zero"`. -/
theorem calcRun_div_by_zero (s : String) (a : Ast) (m : String)
    (hsq : sqrtTrigger (stripQuotes s.toList) = false)
    (hch : charsOk (stripQuotes s.toList) = true)
    (hp : pyParse (stripQuotes s.toList) = .ok a)
    (he : eval_expr a = .error (.zeroDiv m)) :
    calcRun s = errWrap m
    ∧ calcRun "5 / 0" = "❗ Error evaluating expression: division by zero" := by
  refine ⟨?_, by decide⟩
  unfold calcRun
  rw [calcRunCore_general _ a hsq hch hp, he]
  rfl

theorem calcRun_div_by_zero_witness :
    calcRun "5 / 0" = errWrap "division by zero"
    ∧ calcRun "5 / 0" = "❗ Error evaluating expression: division by zero" :=
  calcRun_div_by_zero "5 / 0"
    (.binOp .div (.num (.intV 5)) (.num (.intV 0))) "division by zero"
    (by decide) (by decide) (by decide) (by decide)

/-- Claim C7: every input whose quote-stripped text is empty (including the
empty string itself) fails the one-or-more whitelist match and yields the
"invalid characters" error. -/
theorem calcRun_empty_input (s : String) (h : stripQuotes s.toList = []) :
    calcRun s = "❗ Invalid characters in expression."
    ∧ calcRun "" = "❗ Invalid characters in expression." := by
  refine ⟨?_, by decide⟩
  unfold calcRun
  rw [h]
  decide

theorem calcRun_empty_input_witness :
    calcRun "\"\"" = "❗ Invalid characters in expression."
    ∧ calcRun "" = "❗ Invalid characters in expression." :=
  calcRun_empty_input "\"\"" (by decide)

/-- Claim C8: whenever the quote-stripped input triggers the square-root
shortcut but contains no run of decimal digits, `_run` returns the error
saying no number could be identified. -/
theorem calcRun_sqrt_no_number (s : String)
    (ht : sqrtTrigger (stripQuotes s.toList) = true)
    (hd : firstDigitRun (stripQuotes s.toList) = none) :
    calcRun s = "❗ Could not identify a number to calculate square root." := by
  unfold calcRun
  exact calcRunCore_sqrt_none _ ht hd

theorem calcRun_sqrt_no_number_witness :
    calcRun "square root of pie" =
      "❗ Could not identify a number to calculate square root." :=
  calcRun_sqrt_no_number "square root of pie" (by decide) (by decide)

/-- Claim C10, counterexample to the claim as stated: `"1 / 0 - (+5)"`
contains a unary plus, yet `_run` returns the division-by-zero message, not an
unsupported-operation error — the left subtree fails before the `UAdd` node is
reached. -/
theorem calcRun_unary_plus_cex :
    pyParse (stripQuotes ("1 / 0 - (+5)".toList)) =
      .ok (.binOp .sub (.binOp .div (.num (.intV 1)) (.num (.intV 0)))
            (.unaryOp .uadd (.num (.intV 5))))
    ∧ containsUAdd (.binOp .sub (.binOp .div (.num (.intV 1)) (.num (.intV 0)))
            (.unaryOp .uadd (.num (.intV 5)))) = true
    ∧ calcRun "1 / 0 - (+5)" = "❗ Error evaluating expression: division by zero"
    ∧ containsSub (calcRun "1 / 0 - (+5)").toList ("UAdd".toList) = false :=
  ⟨by decide, by decide, by decide, by decide⟩

/-- Claim C10 as amended: a parsed tree containing a unary plus never
evaluates to a value — `_run` returns an error string, never the operand's
value; evaluating the `UAdd` node itself raises the unsupported-operation
error naming `UAdd` (the operator is absent from the table, which holds only
`USub`), so that is the message whenever the unary-plus node is the first
failure reached, as in `_run("+5")`. -/
theorem calcRun_unary_plus (s : String) (a : Ast)
    (hsq : sqrtTrigger (stripQuotes s.toList) = false)
    (hch : charsOk (stripQuotes s.toList) = true)
    (hp : pyParse (stripQuotes s.toList) = .ok a)
    (hu : containsUAdd a = true) :
    beginsWithMarker (calcRun s) = true
    ∧ (∀ e : Ast, eval_expr (.unaryOp .uadd e) =
        .error (.valueError "Unsupported operation: UAdd"))
    ∧ calcRun "+5" = "❗ Error evaluating expression: Unsupported operation: UAdd" := by
  refine ⟨?_, fun e => rfl, by decide⟩
  unfold calcRun
  rw [calcRunCore_general _ a hsq hch hp]
  cases he : eval_expr a with
  | ok v => exact absurd ((eval_expr_ok_clean a v he).2) (by simp [hu])
  | error exc => exact beginsWithMarker_errWrap (excMsg exc)

theorem calcRun_unary_plus_witness :
    beginsWithMarker (calcRun "+5") = true :=
  (calcRun_unary_plus "+5" (.unaryOp .uadd (.num (.intV 5)))
    (by decide) (by decide) (by decide) (by decide)).1
